import Mathlib

/-!
Verification of the site monitoring and alerting core of
chanslor-usgs-river-levels.

Shallow embedding of the numeric core of `usgs_multi_alert.py` and `qpf.py`:
Python floats are modelled as rationals (ℚ), `None` as `Option.none`,
exceptions raised by fallible code as `Option`/explicit outcome flags.
-/

/-- Threshold evaluator: `is_in` from `usgs_multi_alert.py` (main, lines
1510-1513).  `cond_ft = True if th_ft is None else (stage is not None and
stage >= th_ft)`; symmetric for cfs; result is the conjunction. -/
def is_in (stage cfs th_ft th_cfs : Option ℚ) : Bool :=
  (match th_ft with
   | none => true
   | some t => match stage with
     | none => false
     | some s => decide (t ≤ s)) &&
  (match th_cfs with
   | none => true
   | some t => match cfs with
     | none => false
     | some c => decide (t ≤ c))

/-- Percent change: `calculate_percent_change` from `usgs_multi_alert.py`
(lines 747-775).  `trend_data` falsy (None dict / missing or empty values)
is modelled as `none` or `some []`. -/
def calculate_percent_change (trend_data : Option (List ℚ)) : Option ℚ × String :=
  match trend_data with
  | none => (none, "flat")
  | some values =>
    if values.isEmpty then (none, "flat")
    else if values.length < 2 then (none, "flat")
    else
      let old_val := values.headD 0
      let new_val := values.getLastD 0
      if old_val = 0 then (none, "flat")
      else
        let pct_change := ((new_val - old_val) / old_val) * 100
        (some pct_change,
          if 1/2 < pct_change then "up"
          else if pct_change < -(1/2) then "down"
          else "flat")

/-- C3: `InRange` is the conjunction of a feet condition and a cfs condition:
the feet condition is true when `th_ft` is unset and otherwise requires the
stage to be present and at least `th_ft` (symmetric for discharge); a missing
measured value with a configured threshold makes that condition false, no
thresholds configured gives true, and the four concrete evaluations of the
spec hold. -/
theorem c3_in_range_conjunction :
    (∀ stage cfs th_ft th_cfs : Option ℚ,
      (is_in stage cfs th_ft th_cfs = true ↔
        ((∀ t : ℚ, th_ft = some t → ∃ s, stage = some s ∧ t ≤ s) ∧
         (∀ t : ℚ, th_cfs = some t → ∃ c, cfs = some c ∧ t ≤ c)))) ∧
    (∀ (cfs th_cfs : Option ℚ) (t : ℚ), is_in none cfs (some t) th_cfs = false) ∧
    (∀ (stage th_ft : Option ℚ) (t : ℚ), is_in stage none th_ft (some t) = false) ∧
    (∀ stage cfs : Option ℚ, is_in stage cfs none none = true) ∧
    is_in (some 5) (some 300) (some 4) (some 250) = true ∧
    is_in (some 3) (some 300) (some 4) (some 250) = false ∧
    is_in none (some 300) (some 4) (some 250) = false ∧
    is_in (some 1) (some 50) none none = true := by
  refine ⟨?_, ?_, ?_, ?_, by decide, by decide, by decide, by decide⟩
  · intro stage cfs th_ft th_cfs
    cases th_ft <;> cases th_cfs <;> cases stage <;> cases cfs <;> simp [is_in]
  · intro cfs th_cfs t
    cases th_cfs <;> cases cfs <;> simp [is_in]
  · intro stage th_ft t
    cases th_ft <;> cases stage <;> simp [is_in]
  · intro stage cfs
    cases stage <;> cases cfs <;> simp [is_in]

/-- C7: the percent-change computation returns `(none, flat)` for a missing
series or one with fewer than 2 points or first value 0, and otherwise
returns `((last - first) / first) * 100` classified up / down / flat with a
0.5 band; the spec's four concrete examples evaluate as stated. -/
theorem c7_percent_change :
    (calculate_percent_change none = (none, "flat")) ∧
    (∀ values : List ℚ, values.length < 2 →
      calculate_percent_change (some values) = (none, "flat")) ∧
    (∀ values : List ℚ, values.headD 0 = 0 →
      calculate_percent_change (some values) = (none, "flat")) ∧
    (∀ values : List ℚ, 2 ≤ values.length → values.headD 0 ≠ 0 →
      calculate_percent_change (some values) =
        (some (((values.getLastD 0 - values.headD 0) / values.headD 0) * 100),
          if 1/2 < ((values.getLastD 0 - values.headD 0) / values.headD 0) * 100 then "up"
          else if ((values.getLastD 0 - values.headD 0) / values.headD 0) * 100 < -(1/2) then "down"
          else "flat")) ∧
    calculate_percent_change (some [2, 5/2, 3]) = (some 50, "up") ∧
    calculate_percent_change (some [3, 5/2, 2]) = (some (-100/3), "down") ∧
    calculate_percent_change (some [5/2, 5/2, 5/2]) = (some 0, "flat") ∧
    calculate_percent_change (some []) = (none, "flat") := by
  refine ⟨rfl, ?_, ?_, ?_, by norm_num [calculate_percent_change],
    by norm_num [calculate_percent_change], by norm_num [calculate_percent_change], rfl⟩
  · intro values hlen
    match values with
    | [] => rfl
    | [a] => rfl
    | a :: b :: rest => simp at hlen; omega
  · intro values hhead
    match values with
    | [] => rfl
    | a :: rest =>
      simp [List.headD] at hhead
      simp [calculate_percent_change, hhead]
  · intro values hlen hhead
    match values with
    | [] => simp at hlen
    | [a] => simp at hlen
    | a :: b :: rest =>
      simp only [calculate_percent_change, List.isEmpty]
      simp only [List.headD] at hhead ⊢
      rw [if_neg (by simp), if_neg (by simp), if_neg hhead]

/-- Witness for C7 at a concrete input with the hypotheses discharged. -/
theorem c7_percent_change_witness :
    calculate_percent_change (some [1, 2]) =
      (some (((([1, 2] : List ℚ).getLastD 0 - ([1, 2] : List ℚ).headD 0) /
        ([1, 2] : List ℚ).headD 0) * 100),
        if 1/2 < ((([1, 2] : List ℚ).getLastD 0 - ([1, 2] : List ℚ).headD 0) /
            ([1, 2] : List ℚ).headD 0) * 100 then "up"
        else if ((([1, 2] : List ℚ).getLastD 0 - ([1, 2] : List ℚ).headD 0) /
            ([1, 2] : List ℚ).headD 0) * 100 < -(1/2) then "down"
        else "flat") :=
  c7_percent_change.2.2.2.1 [1, 2] (by decide) (by decide)

/-- Validation bounds for a StreamBeam (scraped) source, from
`fetch_streambeam_latest` in `usgs_multi_alert.py` (config keys
`streambeam_min_valid_ft`, `streambeam_max_valid_ft`,
`streambeam_max_change_ft`). -/
structure SBBounds where
  min_valid : ℚ
  max_valid : ℚ
  max_change : ℚ
deriving DecidableEq

/-- Outcome of the two sanity checks in `fetch_streambeam_latest`
(lines 624-646): `rejectedRange` / `rejectedChange` correspond to the two
`ValueError`s, `accepted` to the fall-through. -/
inductive SBResult where
  | accepted (v : ℚ)
  | rejectedRange (v : ℚ)
  | rejectedChange (v : ℚ)
deriving DecidableEq

/-- The sanity checks of `fetch_streambeam_latest`, applied in source order:
absolute bounds first, then rate of change against the last known good
value (skipped when there is none). -/
def sbValidate (b : SBBounds) (lastGood : Option ℚ) (v : ℚ) : SBResult :=
  if v < b.min_valid ∨ b.max_valid < v then .rejectedRange v
  else
    match lastGood with
    | some g => if b.max_change < |v - g| then .rejectedChange v else .accepted v
    | none => .accepted v

/-- `true` exactly when the reading passed both sanity checks. -/
def sbAccepted (r : SBResult) : Bool :=
  match r with
  | .accepted _ => true
  | _ => false

/-- One StreamBeam cycle for a site, combining `fetch_streambeam_latest`
with the fallback branch of `main` (lines 1531-1554).  `raw = none` models a
scrape failure (`RuntimeError`); a rejected reading raises `ValueError`.
Both are caught by `except (RuntimeError, ValueError)` in `main`, which then
substitutes the last known good value if one exists and otherwise skips the
site.  Returns (reported stage for the cycle or `none` = site skipped,
new last-known-good cache entry, stale flag for the cycle's output). -/
def sbCycle (b : SBBounds) (lastGood : Option ℚ) (raw : Option ℚ) :
    Option ℚ × Option ℚ × Bool :=
  match raw with
  | none => (lastGood, lastGood, lastGood.isSome)
  | some v =>
    match sbValidate b lastGood v with
    | .accepted w => (some w, some w, false)
    | _ => (lastGood, lastGood, lastGood.isSome)

/-- C4: the StreamBeam validator applies its rules in order (bounds first,
then rate of change against last-known-good), accepts otherwise, the
last-known-good cache is overwritten exactly on acceptance, and a first-ever
reading (no last-known-good) only undergoes the bounds check. -/
theorem c4_streambeam_validation :
    (∀ (b : SBBounds) (lg : Option ℚ) (v : ℚ),
      (v < b.min_valid ∨ b.max_valid < v) → sbValidate b lg v = .rejectedRange v) ∧
    (∀ (b : SBBounds) (g v : ℚ),
      ¬(v < b.min_valid ∨ b.max_valid < v) → b.max_change < |v - g| →
        sbValidate b (some g) v = .rejectedChange v) ∧
    (∀ (b : SBBounds) (g v : ℚ),
      ¬(v < b.min_valid ∨ b.max_valid < v) → |v - g| ≤ b.max_change →
        sbValidate b (some g) v = .accepted v) ∧
    (∀ (b : SBBounds) (lg : Option ℚ) (v : ℚ),
      (sbCycle b lg (some v)).2.1 =
        (if sbAccepted (sbValidate b lg v) then some v else lg)) ∧
    (∀ (b : SBBounds) (v : ℚ),
      sbValidate b none v =
        (if v < b.min_valid ∨ b.max_valid < v then .rejectedRange v else .accepted v)) := by
  refine ⟨?_, ?_, ?_, ?_, ?_⟩
  · intro b lg v h
    simp [sbValidate, h]
  · intro b g v h hc
    simp [sbValidate, h, hc]
  · intro b g v h hc
    simp [sbValidate, h, not_lt.mpr hc]
  · intro b lg v
    unfold sbCycle
    rcases hval : sbValidate b lg v with w | w | w
    · have hv : w = v := by
        unfold sbValidate at hval
        split at hval
        · simp at hval
        · split at hval
          · split at hval <;> simp_all
          · simp_all
      simp [hval, sbAccepted, hv]
    · simp [hval, sbAccepted]
    · simp [hval, sbAccepted]
  · intro b v
    by_cases h : v < b.min_valid ∨ b.max_valid < v <;> simp [sbValidate, h]

/-- Witness for C4 at concrete inputs (the spec's own validator examples:
bounds reject at -10 with bounds [-5, 30]; accept 1.5 against last good 1.4
with max change 5; change reject 10.0 against last good 1.0). -/
theorem c4_streambeam_validation_witness :
    sbValidate ⟨-5, 30, 5⟩ none (-10) = .rejectedRange (-10) ∧
    sbValidate ⟨-5, 30, 5⟩ (some (7/5)) (3/2) = .accepted (3/2) ∧
    sbValidate ⟨-5, 30, 5⟩ (some 1) 10 = .rejectedChange 10 :=
  ⟨c4_streambeam_validation.1 ⟨-5, 30, 5⟩ none (-10) (by norm_num),
   c4_streambeam_validation.2.2.1 ⟨-5, 30, 5⟩ (7/5) (3/2) (by norm_num)
     (by rw [abs_of_nonneg (by norm_num)]; norm_num),
   c4_streambeam_validation.2.1 ⟨-5, 30, 5⟩ 1 10 (by norm_num)
     (by rw [abs_of_nonneg (by norm_num)]; norm_num)⟩

/-- C5: when the StreamBeam fetch fails or the reading is rejected, the
cycle reports the last-known-good value (marked stale) when one exists and
skips the site when none does; three consecutive failed cycles starting from
a 1.20 ft last-known-good each report 1.20 ft. -/
theorem c5_streambeam_fallback :
    (∀ (b : SBBounds) (lg raw : Option ℚ),
      (raw = none ∨ ∃ v, raw = some v ∧ sbAccepted (sbValidate b lg v) = false) →
        sbCycle b lg raw = (lg, lg, lg.isSome)) ∧
    (∀ (b : SBBounds) (raw : Option ℚ),
      (raw = none ∨ ∃ v, raw = some v ∧ sbAccepted (sbValidate b none v) = false) →
        sbCycle b none raw = (none, none, false)) ∧
    (let b : SBBounds := ⟨-10, 50, 5⟩
     let c1 := sbCycle b (some (6/5)) none
     let c2 := sbCycle b c1.2.1 none
     let c3 := sbCycle b c2.2.1 none
     c1.1 = some (6/5) ∧ c2.1 = some (6/5) ∧ c3.1 = some (6/5) ∧
     c1.2.2 = true ∧ c2.2.2 = true ∧ c3.2.2 = true) := by
  refine ⟨?_, ?_, ⟨rfl, rfl, rfl, rfl, rfl, rfl⟩⟩
  · intro b lg raw h
    rcases h with h | ⟨v, hv, hrej⟩
    · simp [h, sbCycle]
    · subst hv
      rcases hval : sbValidate b lg v with w | w | w
      · rw [hval] at hrej; simp [sbAccepted] at hrej
      · simp [sbCycle, hval]
      · simp [sbCycle, hval]
  · intro b raw h
    rcases h with h | ⟨v, hv, hrej⟩
    · simp [h, sbCycle]
    · subst hv
      rcases hval : sbValidate b none v with w | w | w
      · rw [hval] at hrej; simp [sbAccepted] at hrej
      · simp [sbCycle, hval]
      · simp [sbCycle, hval]

/-- Witness for C5: a rejected out-of-range reading with last-known-good
1.20 ft reports 1.20 ft stale. -/
theorem c5_streambeam_fallback_witness :
    sbCycle ⟨-10, 50, 5⟩ (some (6/5)) (some 100) =
      (some (6/5), some (6/5), (some (6/5) : Option ℚ).isSome) :=
  c5_streambeam_fallback.1 ⟨-10, 50, 5⟩ (some (6/5)) (some 100)
    (Or.inr ⟨100, rfl, by norm_num [sbValidate, sbAccepted]⟩)

/-- Persisted per-site state (`site_state` dict in `main`), with the read
defaults of lines 1878-1881 and 1982-1983: epochs default to 0, `last_in`
to false, last seen values to `None`. -/
structure SiteState where
  last_alert_epoch : ℚ
  last_out_epoch : ℚ
  last_pct_change_epoch : ℚ
  last_in : Bool
  last_in_epoch : ℚ
  last_stage_ft : Option ℚ
  last_cfs : Option ℚ
  last_ts_iso : Option String
deriving DecidableEq

/-- State read for a site never seen before (empty dict, all `get` defaults). -/
def initialSiteState : SiteState :=
  { last_alert_epoch := 0, last_out_epoch := 0, last_pct_change_epoch := 0
    last_in := false, last_in_epoch := 0
    last_stage_ft := none, last_cfs := none, last_ts_iso := none }

/-- Alerting configuration resolved in `main` (notify mode string, cooldowns,
thresholds). -/
structure AlertConfig where
  notify_mode : String
  cooldown_sec : ℚ
  send_out : Bool
  out_cooldown_sec : ℚ
  pct_change_enabled : Bool
  pct_change_cooldown_sec : ℚ
  pct_change_threshold : ℚ
  th_ft : Option ℚ
  th_cfs : Option ℚ

/-- Outcome of each `send_email` call this cycle: `false` means the SMTP
dispatch raises (caught by the `except` at line 1993). -/
structure DispatchOutcome where
  inOk : Bool
  outOk : Bool
  pctOk : Bool

/-- The IN-alert firing condition (lines 1966-1974): in rising mode
`(not was_in) and in_range and (now - last_alert_t >= cooldown_sec)`,
otherwise `in_range and (now - last_alert_t >= cooldown_sec)`. -/
def inFireCond (cfg : AlertConfig) (st : SiteState) (now : ℚ) (in_range : Bool) : Bool :=
  if cfg.notify_mode = "rising" then
    (!st.last_in && in_range) && decide (cfg.cooldown_sec ≤ now - st.last_alert_epoch)
  else
    in_range && decide (cfg.cooldown_sec ≤ now - st.last_alert_epoch)

/-- The OUT-alert firing condition (line 1976). -/
def outFireCond (cfg : AlertConfig) (st : SiteState) (now : ℚ) (in_range : Bool) : Bool :=
  cfg.send_out && st.last_in && !in_range &&
    decide (cfg.out_cooldown_sec ≤ now - st.last_out_epoch)

/-- The percent-change-alert firing condition (lines 1981-1988), evaluated
against the previous cycle's `last_stage_ft`. -/
def pctFireCond (cfg : AlertConfig) (st : SiteState) (now : ℚ) (stage : Option ℚ) : Bool :=
  cfg.pct_change_enabled && stage.isSome &&
    (match st.last_stage_ft with
     | none => false
     | some last_stage =>
       decide (0 < last_stage) &&
       decide (cfg.pct_change_cooldown_sec ≤ now - st.last_pct_change_epoch) &&
       decide (cfg.pct_change_threshold ≤ |((stage.getD 0 - last_stage) / last_stage) * 100|))

/-- The `try` block of lines 1966-1994.  Each firing rule calls
`send_email` and only then writes its cooldown timestamp
(`do_in_alert` / `do_out_alert` / `do_pct_change_alert`); a raising
dispatch aborts the rest of the block and leaves that timestamp at its
prior value.  Returns the state after the block plus, per rule, whether its
dispatch was attempted. -/
def tryAlerts (cfg : AlertConfig) (st : SiteState) (now : ℚ) (stage : Option ℚ)
    (in_range : Bool) (d : DispatchOutcome) : SiteState × Bool × Bool × Bool :=
  let fIn := inFireCond cfg st now in_range
  let fOut := outFireCond cfg st now in_range
  let fPct := pctFireCond cfg st now stage
  if fIn && !d.inOk then (st, true, false, false)
  else
    let st1 := if fIn then { st with last_alert_epoch := now } else st
    if fOut && !d.outOk then (st1, fIn, true, false)
    else
      let st2 := if fOut then { st1 with last_out_epoch := now } else st1
      if fPct && !d.pctOk then (st2, fIn, fOut, true)
      else
        let st3 := if fPct then { st2 with last_pct_change_epoch := now } else st2
        (st3, fIn, fOut, fPct)

/-- One full alert cycle for a site: the try block above followed by the
unconditional end-of-cycle persist of lines 1996-2004 (`last_stage_ft`,
`last_ts_iso`, `last_cfs`, `last_in` always overwritten; `last_in_epoch`
only on an OUT-to-IN transition) before `set_site_state`. -/
def alertCycle (cfg : AlertConfig) (st : SiteState) (now : ℚ)
    (stage cfs : Option ℚ) (ts : String) (d : DispatchOutcome) :
    SiteState × Bool × Bool × Bool :=
  let in_range := is_in stage cfs cfg.th_ft cfg.th_cfs
  let r := tryAlerts cfg st now stage in_range d
  ({ r.1 with
      last_stage_ft := stage
      last_ts_iso := some ts
      last_cfs := cfs
      last_in := in_range
      last_in_epoch := if !st.last_in && in_range then now else r.1.last_in_epoch },
   r.2)

theorem alertCycle_fired_in (cfg : AlertConfig) (st : SiteState) (now : ℚ)
    (stage cfs : Option ℚ) (ts : String) (d : DispatchOutcome) :
    (alertCycle cfg st now stage cfs ts d).2.1 =
      inFireCond cfg st now (is_in stage cfs cfg.th_ft cfg.th_cfs) := by
  obtain ⟨iOk, oOk, pOk⟩ := d
  simp only [alertCycle, tryAlerts]
  cases hIn : inFireCond cfg st now (is_in stage cfs cfg.th_ft cfg.th_cfs) <;>
  cases hOut : outFireCond cfg st now (is_in stage cfs cfg.th_ft cfg.th_cfs) <;>
  cases hPct : pctFireCond cfg st now stage <;>
  cases iOk <;> cases oOk <;> cases pOk <;> simp

theorem alertCycle_last_alert_epoch (cfg : AlertConfig) (st : SiteState) (now : ℚ)
    (stage cfs : Option ℚ) (ts : String) (d : DispatchOutcome) :
    (alertCycle cfg st now stage cfs ts d).1.last_alert_epoch =
      if inFireCond cfg st now (is_in stage cfs cfg.th_ft cfg.th_cfs) && d.inOk
      then now else st.last_alert_epoch := by
  obtain ⟨iOk, oOk, pOk⟩ := d
  simp only [alertCycle, tryAlerts]
  cases hIn : inFireCond cfg st now (is_in stage cfs cfg.th_ft cfg.th_cfs) <;>
  cases hOut : outFireCond cfg st now (is_in stage cfs cfg.th_ft cfg.th_cfs) <;>
  cases hPct : pctFireCond cfg st now stage <;>
  cases iOk <;> cases oOk <;> cases pOk <;> simp

theorem alertCycle_last_out_epoch (cfg : AlertConfig) (st : SiteState) (now : ℚ)
    (stage cfs : Option ℚ) (ts : String) (d : DispatchOutcome) :
    (alertCycle cfg st now stage cfs ts d).1.last_out_epoch =
      if (!(inFireCond cfg st now (is_in stage cfs cfg.th_ft cfg.th_cfs) && !d.inOk)
          && outFireCond cfg st now (is_in stage cfs cfg.th_ft cfg.th_cfs) && d.outOk)
      then now else st.last_out_epoch := by
  obtain ⟨iOk, oOk, pOk⟩ := d
  simp only [alertCycle, tryAlerts]
  cases hIn : inFireCond cfg st now (is_in stage cfs cfg.th_ft cfg.th_cfs) <;>
  cases hOut : outFireCond cfg st now (is_in stage cfs cfg.th_ft cfg.th_cfs) <;>
  cases hPct : pctFireCond cfg st now stage <;>
  cases iOk <;> cases oOk <;> cases pOk <;> simp

theorem alertCycle_last_pct_epoch (cfg : AlertConfig) (st : SiteState) (now : ℚ)
    (stage cfs : Option ℚ) (ts : String) (d : DispatchOutcome) :
    (alertCycle cfg st now stage cfs ts d).1.last_pct_change_epoch =
      if (!(inFireCond cfg st now (is_in stage cfs cfg.th_ft cfg.th_cfs) && !d.inOk)
          && !(outFireCond cfg st now (is_in stage cfs cfg.th_ft cfg.th_cfs) && !d.outOk)
          && pctFireCond cfg st now stage && d.pctOk)
      then now else st.last_pct_change_epoch := by
  obtain ⟨iOk, oOk, pOk⟩ := d
  simp only [alertCycle, tryAlerts]
  cases hIn : inFireCond cfg st now (is_in stage cfs cfg.th_ft cfg.th_cfs) <;>
  cases hOut : outFireCond cfg st now (is_in stage cfs cfg.th_ft cfg.th_cfs) <;>
  cases hPct : pctFireCond cfg st now stage <;>
  cases iOk <;> cases oOk <;> cases pOk <;> simp

theorem alertCycle_persist_fields (cfg : AlertConfig) (st : SiteState) (now : ℚ)
    (stage cfs : Option ℚ) (ts : String) (d : DispatchOutcome) :
    (alertCycle cfg st now stage cfs ts d).1.last_in =
        is_in stage cfs cfg.th_ft cfg.th_cfs ∧
    (alertCycle cfg st now stage cfs ts d).1.last_stage_ft = stage ∧
    (alertCycle cfg st now stage cfs ts d).1.last_ts_iso = some ts ∧
    (alertCycle cfg st now stage cfs ts d).1.last_cfs = cfs := by
  simp [alertCycle]

/-- Configuration for the spec's rising-mode scenario: `min_ft = 1.70`, no
cfs threshold, 1-hour cooldown, rising notify mode, other rules off. -/
def risingScenarioCfg : AlertConfig :=
  { notify_mode := "rising", cooldown_sec := 3600, send_out := false
    out_cooldown_sec := 3600, pct_change_enabled := false
    pct_change_cooldown_sec := 3600, pct_change_threshold := 50
    th_ft := some (17/10), th_cfs := none }

/-- Every dispatch succeeds this cycle. -/
def allOk : DispatchOutcome := ⟨true, true, true⟩

/-- C1: in rising notify mode an IN alert fires iff the persisted `last_in`
was false, the newly computed `in_range` is true, and `now` minus
`last_alert_epoch` is at least the cooldown; in the spec's scenario
(min 1.70 ft, 1-hour cooldown, stages 1.65 then 1.75 then 1.80 ten minutes
later) exactly one IN alert fires, at the OUT-to-IN transition. -/
theorem c1_rising_mode_edge_trigger :
    (∀ cfg : AlertConfig, cfg.notify_mode = "rising" →
      ∀ (st : SiteState) (now : ℚ) (stage cfs : Option ℚ) (ts : String)
        (d : DispatchOutcome),
        ((alertCycle cfg st now stage cfs ts d).2.1 = true ↔
          (st.last_in = false ∧ is_in stage cfs cfg.th_ft cfg.th_cfs = true ∧
           cfg.cooldown_sec ≤ now - st.last_alert_epoch))) ∧
    ((alertCycle risingScenarioCfg initialSiteState 10000
        (some (33/20)) none "t1" allOk).2.1 = false ∧
     (alertCycle risingScenarioCfg
        (alertCycle risingScenarioCfg initialSiteState 10000
          (some (33/20)) none "t1" allOk).1
        10900 (some (7/4)) none "t2" allOk).2.1 = true ∧
     (alertCycle risingScenarioCfg
        (alertCycle risingScenarioCfg
          (alertCycle risingScenarioCfg initialSiteState 10000
            (some (33/20)) none "t1" allOk).1
          10900 (some (7/4)) none "t2" allOk).1
        11500 (some (9/5)) none "t3" allOk).2.1 = false) := by
  constructor
  · intro cfg hmode st now stage cfs ts d
    rw [alertCycle_fired_in]
    simp [inFireCond, hmode, and_assoc]
  · norm_num [alertCycle, tryAlerts, inFireCond, outFireCond, pctFireCond,
      is_in, risingScenarioCfg, initialSiteState, allOk]

/-- Witness for C1 with its notify-mode hypothesis discharged at a concrete
configuration and cycle. -/
theorem c1_rising_mode_edge_trigger_witness :
    (alertCycle risingScenarioCfg initialSiteState 10900
        (some (7/4)) none "w" allOk).2.1 = true ↔
      (initialSiteState.last_in = false ∧
       is_in (some (7/4)) none risingScenarioCfg.th_ft risingScenarioCfg.th_cfs = true ∧
       risingScenarioCfg.cooldown_sec ≤ 10900 - initialSiteState.last_alert_epoch) :=
  c1_rising_mode_edge_trigger.1 risingScenarioCfg rfl initialSiteState 10900
    (some (7/4)) none "w" allOk

/-- C2: a firing rule's cooldown timestamp is set to `now` only when its
dispatch succeeds and is left at its prior value when the dispatch raises,
while `last_in`, `last_stage_ft`, `last_ts_iso` and `last_cfs` are always
overwritten with the cycle's newly computed values before the state is
saved. -/
theorem c2_dispatch_gates_cooldowns :
    ∀ (cfg : AlertConfig) (st : SiteState) (now : ℚ) (stage cfs : Option ℚ)
      (ts : String) (d : DispatchOutcome),
      (d.inOk = false →
        (alertCycle cfg st now stage cfs ts d).1.last_alert_epoch =
          st.last_alert_epoch) ∧
      (d.outOk = false →
        (alertCycle cfg st now stage cfs ts d).1.last_out_epoch =
          st.last_out_epoch) ∧
      (d.pctOk = false →
        (alertCycle cfg st now stage cfs ts d).1.last_pct_change_epoch =
          st.last_pct_change_epoch) ∧
      ((alertCycle cfg st now stage cfs ts d).1.last_alert_epoch =
          st.last_alert_epoch ∨
        ((alertCycle cfg st now stage cfs ts d).1.last_alert_epoch = now ∧
          d.inOk = true)) ∧
      ((alertCycle cfg st now stage cfs ts d).1.last_out_epoch =
          st.last_out_epoch ∨
        ((alertCycle cfg st now stage cfs ts d).1.last_out_epoch = now ∧
          d.outOk = true)) ∧
      ((alertCycle cfg st now stage cfs ts d).1.last_pct_change_epoch =
          st.last_pct_change_epoch ∨
        ((alertCycle cfg st now stage cfs ts d).1.last_pct_change_epoch = now ∧
          d.pctOk = true)) ∧
      (alertCycle cfg st now stage cfs ts d).1.last_in =
        is_in stage cfs cfg.th_ft cfg.th_cfs ∧
      (alertCycle cfg st now stage cfs ts d).1.last_stage_ft = stage ∧
      (alertCycle cfg st now stage cfs ts d).1.last_ts_iso = some ts ∧
      (alertCycle cfg st now stage cfs ts d).1.last_cfs = cfs := by
  intro cfg st now stage cfs ts d
  have persist := alertCycle_persist_fields cfg st now stage cfs ts d
  refine ⟨?_, ?_, ?_, ?_, ?_, ?_, persist.1, persist.2.1, persist.2.2.1,
    persist.2.2.2⟩
  · intro h
    rw [alertCycle_last_alert_epoch]
    simp [h]
  · intro h
    rw [alertCycle_last_out_epoch]
    simp [h]
  · intro h
    rw [alertCycle_last_pct_epoch]
    simp [h]
  · rw [alertCycle_last_alert_epoch]
    cases hc : (inFireCond cfg st now (is_in stage cfs cfg.th_ft cfg.th_cfs) && d.inOk)
    · simp [hc]
    · right
      constructor
      · simp
      · have h2 := hc
        simp only [Bool.and_eq_true] at h2
        exact h2.2
  · rw [alertCycle_last_out_epoch]
    cases hc : (!(inFireCond cfg st now (is_in stage cfs cfg.th_ft cfg.th_cfs) && !d.inOk)
        && outFireCond cfg st now (is_in stage cfs cfg.th_ft cfg.th_cfs) && d.outOk)
    · simp [hc]
    · right
      constructor
      · simp
      · have h2 := hc
        simp only [Bool.and_eq_true] at h2
        exact h2.2
  · rw [alertCycle_last_pct_epoch]
    cases hc : (!(inFireCond cfg st now (is_in stage cfs cfg.th_ft cfg.th_cfs) && !d.inOk)
        && !(outFireCond cfg st now (is_in stage cfs cfg.th_ft cfg.th_cfs) && !d.outOk)
        && pctFireCond cfg st now stage && d.pctOk)
    · simp [hc]
    · right
      constructor
      · simp
      · have h2 := hc
        simp only [Bool.and_eq_true] at h2
        exact h2.2

/-- Witness for C2: with every dispatch failing, all three cooldown
timestamps keep their prior values at a concrete cycle. -/
theorem c2_dispatch_gates_cooldowns_witness :
    (alertCycle
        { notify_mode := "any", cooldown_sec := 0, send_out := true
          out_cooldown_sec := 0, pct_change_enabled := true
          pct_change_cooldown_sec := 0, pct_change_threshold := 0
          th_ft := none, th_cfs := none }
        initialSiteState 5 (some 2) none "w" ⟨false, false, false⟩).1.last_alert_epoch =
      initialSiteState.last_alert_epoch :=
  (c2_dispatch_gates_cooldowns
    { notify_mode := "any", cooldown_sec := 0, send_out := true
      out_cooldown_sec := 0, pct_change_enabled := true
      pct_change_cooldown_sec := 0, pct_change_threshold := 0
      th_ft := none, th_cfs := none }
    initialSiteState 5 (some 2) none "w" ⟨false, false, false⟩).1 rfl

/-- Python slicing `values[::step]`: every `step`-th element starting at
index 0, as used by `fetch_trend_data` (line 417). -/
def sliceStep (l : List ℚ) (step : ℕ) : List ℚ :=
  match l with
  | [] => []
  | x :: xs => x :: sliceStep (xs.drop (step - 1)) step
termination_by l.length
decreasing_by simp_wf; have := List.length_drop (step - 1) xs; omega

/-- The downsampling step of `fetch_trend_data` (lines 413-419):
`step = len(values) // 12`, `sampled = values[::step][:12]` when the series
is longer than 12, otherwise the series unchanged. -/
def usgsSampled (values : List ℚ) : List ℚ :=
  if 12 < values.length then (sliceStep values (values.length / 12)).take 12
  else values

/-- Numeric core of `fetch_trend_data` (`usgs_multi_alert.py` lines
393-424), starting from the filtered float series: fewer than 2 values is
no summary; direction compares last minus first against eps = 0.02;
downsampling as `usgsSampled`. -/
def usgsTrendCore (values : List ℚ) : Option (List ℚ × String) :=
  if values.length < 2 then none
  else
    let delta := values.getLastD 0 - values.headD 0
    let direction :=
      if 1/50 < delta then "rising"
      else if delta < -(1/50) then "falling"
      else "steady"
    some (usgsSampled values, direction)

/-- Numeric core of `_get_streambeam_trend_data` (`usgs_multi_alert.py`
lines 515-553), starting from the ordered stage values of the window: fewer
than 2 rows is no summary; direction compares `sum(values[:3])/min(3,len)`
against `sum(values[-3:])/min(3,len)` with tolerance 0.05; the values list
is returned unchanged (the SQL query has no row limit and no downsampling
is applied). -/
def streambeamTrendCore (values : List ℚ) : Option (List ℚ × String) :=
  if values.length < 2 then none
  else
    let n : ℚ := ((min 3 values.length : ℕ) : ℚ)
    let first_avg := (values.take 3).sum / n
    let last_avg := (values.drop (values.length - 3)).sum / n
    let diff := last_avg - first_avg
    let direction :=
      if 1/20 < diff then "rising"
      else if diff < -(1/20) then "falling"
      else "steady"
    some (values, direction)

theorem sliceStep_getElem (step : ℕ) (hstep : 1 ≤ step) :
    ∀ (l : List ℚ) (j : ℕ), (sliceStep l step)[j]? = l[j * step]? := by
  have main : ∀ (n : ℕ) (l : List ℚ), l.length ≤ n → ∀ j : ℕ,
      (sliceStep l step)[j]? = l[j * step]? := by
    intro n
    induction n with
    | zero =>
      intro l hl j
      have hnil : l = [] := by cases l with
        | nil => rfl
        | cons x xs => simp at hl
      subst hnil
      simp [sliceStep]
    | succ n ih =>
      intro l hl j
      match l with
      | [] => simp [sliceStep]
      | x :: xs =>
        rw [sliceStep]
        cases j with
        | zero => simp
        | succ j =>
          have hlen : (xs.drop (step - 1)).length ≤ n := by
            have := List.length_drop (step - 1) xs
            simp at hl
            omega
          rw [List.getElem?_cons_succ, ih (xs.drop (step - 1)) hlen j,
            List.getElem?_drop]
          have harith : step - 1 + j * step = j * step + step - 1 := by omega
          rw [harith]
          have harith2 : (j + 1) * step = j * step + step := by ring
          rw [harith2, List.getElem?_cons]
          have hpos : ¬(j * step + step = 0) := by
            intro h0
            omega
          rw [if_neg hpos]
  intro l j
  exact main l.length l le_rfl j

/-- C8 counterexample: the StreamBeam trend analyzer does not compare the
last value to the first value and does not downsample.  For the series
[0, 10, 10, 0, 0, 0] the last value equals the first (so the claimed
direction is steady for every nonzero tolerance), yet the code reports
"falling" (it compares three-point averages); and a 13-point series is
returned with all 13 samples rather than truncated to 12. -/
theorem c8_trend_analyzer_counterexample :
    streambeamTrendCore [0, 10, 10, 0, 0, 0] =
      some ([0, 10, 10, 0, 0, 0], "falling") ∧
    ([0, 10, 10, 0, 0, 0] : List ℚ).getLastD 0 -
      ([0, 10, 10, 0, 0, 0] : List ℚ).headD 0 = 0 ∧
    (streambeamTrendCore [1, 1, 1, 1, 1, 1, 1, 1, 1, 1, 1, 1, 2]).map
      (fun r => r.1.length) = some 13 := by
  refine ⟨?_, by norm_num, ?_⟩
  · norm_num [streambeamTrendCore]
  · norm_num [streambeamTrendCore]

/-- C8 amended: for the USGS trend analyzer (`fetch_trend_data`) the claim
holds with eps = 0.02 and N = 12: no summary under 2 valid points, direction
by last minus first, and a series longer than 12 is downsampled to every
(len/12)-th observed value truncated to 12 samples, otherwise unchanged.
The StreamBeam trend analyzer (`_get_streambeam_trend_data`) instead
produces no summary under 2 points, compares the mean of the first three
values with the mean of the last three (tolerance 0.05), and returns the
series unchanged with no downsampling. -/
theorem c8_trend_analyzer_amended :
    (∀ values : List ℚ, values.length < 2 → usgsTrendCore values = none) ∧
    (∀ values : List ℚ, 2 ≤ values.length →
      usgsTrendCore values = some (usgsSampled values,
        if 1/50 < values.getLastD 0 - values.headD 0 then "rising"
        else if values.getLastD 0 - values.headD 0 < -(1/50) then "falling"
        else "steady")) ∧
    (∀ values : List ℚ, ¬ 12 < values.length → usgsSampled values = values) ∧
    (∀ values : List ℚ, 12 < values.length →
      (usgsSampled values).length ≤ 12 ∧
      ∀ j : ℕ, j < 12 →
        (usgsSampled values)[j]? = values[j * (values.length / 12)]?) ∧
    (∀ values : List ℚ, values.length < 2 → streambeamTrendCore values = none) ∧
    (∀ values : List ℚ, 2 ≤ values.length →
      streambeamTrendCore values = some (values,
        if 1/20 < (values.drop (values.length - 3)).sum / ((min 3 values.length : ℕ) : ℚ)
            - (values.take 3).sum / ((min 3 values.length : ℕ) : ℚ) then "rising"
        else if (values.drop (values.length - 3)).sum / ((min 3 values.length : ℕ) : ℚ)
            - (values.take 3).sum / ((min 3 values.length : ℕ) : ℚ) < -(1/20) then "falling"
        else "steady")) := by
  refine ⟨?_, ?_, ?_, ?_, ?_, ?_⟩
  · intro values h
    simp [usgsTrendCore, h]
  · intro values h
    rw [usgsTrendCore, if_neg (by omega)]
  · intro values h
    simp [usgsSampled, h]
  · intro values h
    constructor
    · simp only [usgsSampled, if_pos h]
      have := List.length_take 12 (sliceStep values (values.length / 12))
      omega
    · intro j hj
      simp only [usgsSampled, if_pos h]
      have hstep : 1 ≤ values.length / 12 :=
        Nat.one_le_div_iff (by omega) |>.mpr (by omega)
      rw [List.getElem?_take_of_lt hj, sliceStep_getElem (values.length / 12) hstep]
  · intro values h
    simp [streambeamTrendCore, h]
  · intro values h
    rw [streambeamTrendCore, if_neg (by omega)]

/-- Witness for C8's amended theorem at a concrete two-point series. -/
theorem c8_trend_analyzer_amended_witness :
    usgsTrendCore [1, 2] = some (usgsSampled [1, 2],
      if 1/50 < ([1, 2] : List ℚ).getLastD 0 - ([1, 2] : List ℚ).headD 0 then "rising"
      else if ([1, 2] : List ℚ).getLastD 0 - ([1, 2] : List ℚ).headD 0 < -(1/50) then "falling"
      else "steady") :=
  c8_trend_analyzer_amended.2.1 [1, 2] (by decide)

/-- Day-bucket edges of `QPFClient.get_qpf_by_day` (`qpf.py` line 125):
local midnight of today plus `i` whole days, measured in seconds on the
rational time line. -/
def dayEdge (e0 : ℚ) (i : ℕ) : ℚ := e0 + 86400 * (i : ℚ)

/-- Clamp of a time into the interval window `[s, e]`; proof device for the
telescoping overlap sum. -/
def clampQ (s e x : ℚ) : ℚ := max s (min e x)

/-- The contribution of one forecast interval `[s, e)` with amount `mm` to
one day bucket `[lo, hi)` (`qpf.py` lines 155-162): `mm * overlap /
bin_seconds` when the overlap is positive, nothing otherwise. -/
def bucketShare (mm s e lo hi : ℚ) : ℚ :=
  if 0 < min e hi - max s lo then mm * ((min e hi - max s lo) / (e - s)) else 0

/-- The per-bucket contributions of a single interval in
`QPFClient.get_qpf_by_day` (lines 146-162): the interval is skipped when it
lies entirely outside `[day_edges[0], day_edges[-1])` or when its bin length
is nonpositive; otherwise bucket `i` gets its `bucketShare`. -/
def intervalContrib (e0 : ℚ) (days : ℕ) (mm s e : ℚ) : List ℚ :=
  if e ≤ dayEdge e0 0 ∨ dayEdge e0 days ≤ s then []
  else if e - s ≤ 0 then []
  else (List.range days).map fun i =>
    bucketShare mm s e (dayEdge e0 i) (dayEdge e0 (i + 1))

theorem dayEdge_mono (e0 : ℚ) (i : ℕ) : dayEdge e0 i ≤ dayEdge e0 (i + 1) := by
  unfold dayEdge
  have h : (i : ℚ) ≤ ((i + 1 : ℕ) : ℚ) := by exact_mod_cast Nat.le_succ i
  nlinarith

theorem dayEdge_zero_le (e0 : ℚ) (days : ℕ) : dayEdge e0 0 ≤ dayEdge e0 days := by
  unfold dayEdge
  have h : (0 : ℚ) ≤ (days : ℚ) := by exact_mod_cast Nat.zero_le days
  push_cast
  nlinarith

theorem clampQ_le (s e x : ℚ) (hse : s ≤ e) : clampQ s e x ≤ e :=
  max_le hse (min_le_left e x)

theorem le_clampQ (s e x : ℚ) : s ≤ clampQ s e x := le_max_left s _

theorem clampQ_mono (s e x y : ℚ) (h : x ≤ y) : clampQ s e x ≤ clampQ s e y :=
  max_le_max le_rfl (min_le_min le_rfl h)

theorem qpf_overlap_clamp (s e a b : ℚ) (hab : a ≤ b) (hse : s ≤ e) :
    max 0 (min e b - max s a) = clampQ s e b - clampQ s e a := by
  unfold clampQ
  simp only [max_def, min_def]
  split_ifs <;> linarith

theorem qpf_overlap_sum (s e e0 : ℚ) (days : ℕ) (hse : s ≤ e) :
    ((List.range days).map (fun i =>
        max 0 (min e (dayEdge e0 (i + 1)) - max s (dayEdge e0 i)))).sum =
      clampQ s e (dayEdge e0 days) - clampQ s e (dayEdge e0 0) := by
  induction days with
  | zero => simp
  | succ n ih =>
    rw [List.range_succ, List.map_append, List.sum_append]
    simp only [List.map_cons, List.map_nil, List.sum_cons, List.sum_nil]
    rw [ih, qpf_overlap_clamp s e (dayEdge e0 n) (dayEdge e0 (n + 1))
      (dayEdge_mono e0 n) hse]
    ring

theorem bucketShare_eq (mm s e lo hi : ℚ) :
    bucketShare mm s e lo hi = (mm / (e - s)) * max 0 (min e hi - max s lo) := by
  unfold bucketShare
  rcases le_or_lt (min e hi - max s lo) 0 with h | h
  · rw [if_neg (not_lt.mpr h), max_eq_left h]
    ring
  · rw [if_pos h, max_eq_right h.le]
    ring

theorem intervalContrib_sum_eq (e0 : ℚ) (days : ℕ) (mm s e : ℚ)
    (hnoskip : ¬(e ≤ dayEdge e0 0 ∨ dayEdge e0 days ≤ s)) (hpos : 0 < e - s) :
    (intervalContrib e0 days mm s e).sum =
      (mm / (e - s)) *
        (clampQ s e (dayEdge e0 days) - clampQ s e (dayEdge e0 0)) := by
  unfold intervalContrib
  rw [if_neg hnoskip, if_neg (not_le.mpr hpos)]
  have hmap : (List.range days).map
      (fun i => bucketShare mm s e (dayEdge e0 i) (dayEdge e0 (i + 1))) =
      (List.range days).map (fun i =>
        (mm / (e - s)) * max 0 (min e (dayEdge e0 (i + 1)) - max s (dayEdge e0 i))) :=
    List.map_congr_left fun i _ => bucketShare_eq mm s e _ _
  rw [hmap, List.sum_map_mul_left, qpf_overlap_sum s e e0 days (by linarith)]

/-- C6 counterexample: the claimed "sum = amount exactly when the interval
lies fully inside the window" fails for a zero-amount interval entirely
outside the window (sum 0 equals amount 0 without being inside), and
"sum at most amount" fails for a negative amount half inside the window
(sum -1/2 exceeds amount -1). -/
theorem c6_apportionment_counterexample :
    ((intervalContrib 0 1 0 100000 110000).sum = 0 ∧
     ¬(dayEdge 0 0 ≤ (100000 : ℚ) ∧ (110000 : ℚ) ≤ dayEdge 0 1)) ∧
    ((intervalContrib 0 1 (-1) (-43200) 43200).sum = -(1/2) ∧
     ¬((intervalContrib 0 1 (-1) (-43200) 43200).sum ≤ -1)) := by
  constructor
  · constructor
    · norm_num [intervalContrib, dayEdge]
    · norm_num [dayEdge]
  · have hval : (intervalContrib 0 1 (-1) (-43200) 43200).sum = -(1/2) := by
      norm_num [intervalContrib, dayEdge, bucketShare, List.range_succ,
        min_def, max_def]
    exact ⟨hval, by rw [hval]; norm_num⟩

/-- C6 amended: each overlapped day bucket receives `amount * overlap /
duration`; for a nonnegative amount the total apportioned across all
buckets is at most the amount; for a positive amount (and positive
duration) the total equals the amount exactly when the interval lies within
the window from the first to the last day edge; and an interval entirely
outside the window is skipped and contributes nothing.  (A zero amount
attains equality regardless of position, and a negative amount can exceed
the bound, which is what the counterexample forces.) -/
theorem c6_apportionment_amended :
    (∀ (e0 : ℚ) (days : ℕ) (mm s e : ℚ) (i : ℕ),
      ¬(e ≤ dayEdge e0 0 ∨ dayEdge e0 days ≤ s) → 0 < e - s → i < days →
      0 < min e (dayEdge e0 (i + 1)) - max s (dayEdge e0 i) →
      (intervalContrib e0 days mm s e)[i]? =
        some (mm * ((min e (dayEdge e0 (i + 1)) - max s (dayEdge e0 i)) / (e - s)))) ∧
    (∀ (e0 : ℚ) (days : ℕ) (mm s e : ℚ), 0 ≤ mm →
      (intervalContrib e0 days mm s e).sum ≤ mm) ∧
    (∀ (e0 : ℚ) (days : ℕ) (mm s e : ℚ), 0 < e - s →
      dayEdge e0 0 ≤ s → e ≤ dayEdge e0 days →
      (intervalContrib e0 days mm s e).sum = mm) ∧
    (∀ (e0 : ℚ) (days : ℕ) (mm s e : ℚ), 0 < mm → 0 < e - s →
      (intervalContrib e0 days mm s e).sum = mm →
      dayEdge e0 0 ≤ s ∧ e ≤ dayEdge e0 days) ∧
    (∀ (e0 : ℚ) (days : ℕ) (mm s e : ℚ),
      (e ≤ dayEdge e0 0 ∨ dayEdge e0 days ≤ s) →
      intervalContrib e0 days mm s e = []) := by
  refine ⟨?_, ?_, ?_, ?_, ?_⟩
  · intro e0 days mm s e i hnoskip hpos hi hov
    unfold intervalContrib
    rw [if_neg hnoskip, if_neg (not_le.mpr hpos)]
    rw [List.getElem?_map, List.getElem?_range hi, Option.map_some']
    unfold bucketShare
    rw [if_pos hov]
  · intro e0 days mm s e hmm
    by_cases hskip : e ≤ dayEdge e0 0 ∨ dayEdge e0 days ≤ s
    · unfold intervalContrib
      rw [if_pos hskip]
      simpa using hmm
    · by_cases hpos : 0 < e - s
      · have hsum := intervalContrib_sum_eq e0 days mm s e hskip hpos
        have hse : s ≤ e := by linarith
        have hc1 : clampQ s e (dayEdge e0 days) ≤ e := clampQ_le _ _ _ hse
        have hc2 : s ≤ clampQ s e (dayEdge e0 0) := le_clampQ _ _ _
        have hmono := clampQ_mono s e _ _ (dayEdge_zero_le e0 days)
        have hdiv : 0 ≤ mm / (e - s) := div_nonneg hmm hpos.le
        have h2 := mul_le_mul_of_nonneg_left
          (show clampQ s e (dayEdge e0 days) - clampQ s e (dayEdge e0 0) ≤ e - s by
            linarith) hdiv
        have h3 : mm / (e - s) * (e - s) = mm := div_mul_cancel₀ mm (by linarith)
        rw [hsum]
        linarith
      · unfold intervalContrib
        rw [if_neg hskip, if_pos (not_lt.mp hpos)]
        simpa using hmm
  · intro e0 days mm s e hpos h0 hD
    have hnoskip : ¬(e ≤ dayEdge e0 0 ∨ dayEdge e0 days ≤ s) := by
      rintro (h | h) <;> linarith
    rw [intervalContrib_sum_eq e0 days mm s e hnoskip hpos]
    have hse : s ≤ e := by linarith
    have hcD : clampQ s e (dayEdge e0 days) = e := by
      unfold clampQ
      rw [min_eq_left hD, max_eq_right hse]
    have hc0 : clampQ s e (dayEdge e0 0) = s := by
      unfold clampQ
      rw [min_eq_right (by linarith), max_eq_left h0]
    rw [hcD, hc0]
    exact div_mul_cancel₀ mm (by linarith)
  · intro e0 days mm s e hmm hpos hsum
    have hnoskip : ¬(e ≤ dayEdge e0 0 ∨ dayEdge e0 days ≤ s) := by
      intro hskip
      unfold intervalContrib at hsum
      rw [if_pos hskip] at hsum
      simp at hsum
      linarith
    rw [intervalContrib_sum_eq e0 days mm s e hnoskip hpos] at hsum
    have hse : s ≤ e := by linarith
    rw [div_mul_eq_mul_div, div_eq_iff (show e - s ≠ 0 by linarith)] at hsum
    have hS : clampQ s e (dayEdge e0 days) - clampQ s e (dayEdge e0 0) = e - s :=
      mul_left_cancel₀ (show mm ≠ 0 by linarith) hsum
    have hc1 : clampQ s e (dayEdge e0 days) ≤ e := clampQ_le _ _ _ hse
    have hc2 : s ≤ clampQ s e (dayEdge e0 0) := le_clampQ _ _ _
    have hcD : clampQ s e (dayEdge e0 days) = e := by linarith
    have hc0 : clampQ s e (dayEdge e0 0) = s := by linarith
    constructor
    · by_contra h5
      push_neg at h5
      have h6 : s < min e (dayEdge e0 0) := lt_min (by linarith) h5
      have h7 : s < clampQ s e (dayEdge e0 0) := by
        unfold clampQ
        calc s < min e (dayEdge e0 0) := h6
          _ ≤ max s (min e (dayEdge e0 0)) := le_max_right _ _
      linarith
    · by_contra h5
      push_neg at h5
      have h7 : clampQ s e (dayEdge e0 days) < e := by
        unfold clampQ
        rw [min_eq_right h5.le]
        exact max_lt (by linarith) h5
      linarith
  · intro e0 days mm s e h
    unfold intervalContrib
    rw [if_pos h]

/-- Witness for C6's amended theorem: a 1-mm interval spanning exactly the
single-day window apportions exactly 1 mm in total. -/
theorem c6_apportionment_amended_witness :
    (intervalContrib 0 1 1 0 86400).sum = 1 :=
  c6_apportionment_amended.2.2.1 0 1 1 0 86400 (by norm_num)
    (by norm_num [dayEdge]) (by norm_num [dayEdge])

/-- One entry of `properties.quantitativePrecipitation.values` after
timestamp parsing (`qpf.py` lines 128-139): optional amount (mm), local
start time and duration in seconds. -/
structure QPFValue where
  value : Option ℚ
  start : ℚ
  dur : ℚ
deriving DecidableEq

/-- Python dict assignment `totals_mm[date_key] = ...`: replace the value
in place if the key exists, append otherwise. -/
def upsert (t : List (ℕ × ℚ)) (k : ℕ) (v : ℚ) : List (ℕ × ℚ) :=
  match t with
  | [] => [(k, v)]
  | p :: rest => if p.1 = k then (k, v) :: rest else p :: upsert rest k v

/-- Python `totals_mm.get(date_key, 0.0)`. -/
def lookupD (t : List (ℕ × ℚ)) (k : ℕ) : ℚ := (List.lookup k t).getD 0

/-- Processing of one QPF value entry in `get_qpf_by_day` (lines 128-162):
a null amount is skipped entirely; an interval outside the window or with
nonpositive bin length is skipped; otherwise each positively overlapped
bucket receives `mm * overlap / bin_seconds`, created on first touch via
`totals_mm.get(date_key, 0.0)`.  (Day buckets are keyed by index here; the
source keys by the equivalent distinct ISO date of `day_edges[i]`.) -/
def processItem (e0 : ℚ) (days : ℕ) (t : List (ℕ × ℚ)) (it : QPFValue) :
    List (ℕ × ℚ) :=
  match it.value with
  | none => t
  | some mm =>
    if it.start + it.dur ≤ dayEdge e0 0 ∨ dayEdge e0 days ≤ it.start then t
    else if it.start + it.dur - it.start ≤ 0 then t
    else (List.range days).foldl (fun acc i =>
      if 0 < min (it.start + it.dur) (dayEdge e0 (i + 1)) -
          max it.start (dayEdge e0 i) then
        upsert acc i (lookupD acc i +
          mm * ((min (it.start + it.dur) (dayEdge e0 (i + 1)) -
            max it.start (dayEdge e0 i)) / (it.start + it.dur - it.start)))
      else acc) t

/-- The per-day totals map built by `get_qpf_by_day` over all QPF entries
(still in mm; the inch conversion of line 165 maps values only and keeps
the same keys). -/
def qpfTotalsMM (e0 : ℚ) (days : ℕ) (items : List QPFValue) : List (ℕ × ℚ) :=
  items.foldl (processItem e0 days) []

/-- A QPF entry touches bucket `k`: its amount is present, it survives the
window and bin-length guards, and its overlap with bucket `k` is positive. -/
def touches (e0 : ℚ) (days : ℕ) (it : QPFValue) (k : ℕ) : Prop :=
  ∃ mm, it.value = some mm ∧ k < days ∧
    ¬(it.start + it.dur ≤ dayEdge e0 0 ∨ dayEdge e0 days ≤ it.start) ∧
    ¬(it.start + it.dur - it.start ≤ 0) ∧
    0 < min (it.start + it.dur) (dayEdge e0 (k + 1)) - max it.start (dayEdge e0 k)

theorem mem_keys_upsert (t : List (ℕ × ℚ)) (k : ℕ) (v : ℚ) (q : ℕ) :
    q ∈ (upsert t k v).map Prod.fst ↔ q = k ∨ q ∈ t.map Prod.fst := by
  induction t with
  | nil => simp [upsert]
  | cons p rest ih =>
    by_cases h : p.1 = k
    · simp only [upsert, if_pos h, List.map_cons, List.mem_cons]
      rw [← h]
      tauto
    · simp only [upsert, if_neg h, List.map_cons, List.mem_cons, ih]
      tauto

theorem mem_keys_bucket_fold (e0 : ℚ) (mm s e : ℚ) (L : List ℕ)
    (t : List (ℕ × ℚ)) (q : ℕ) :
    q ∈ ((L.foldl (fun acc i =>
        if 0 < min e (dayEdge e0 (i + 1)) - max s (dayEdge e0 i) then
          upsert acc i (lookupD acc i +
            mm * ((min e (dayEdge e0 (i + 1)) - max s (dayEdge e0 i)) / (e - s)))
        else acc) t).map Prod.fst) ↔
      (q ∈ t.map Prod.fst ∨
        (q ∈ L ∧ 0 < min e (dayEdge e0 (q + 1)) - max s (dayEdge e0 q))) := by
  induction L generalizing t with
  | nil => simp
  | cons i L ih =>
    rw [List.foldl_cons]
    by_cases hov : 0 < min e (dayEdge e0 (i + 1)) - max s (dayEdge e0 i)
    · rw [if_pos hov, ih, mem_keys_upsert]
      constructor
      · rintro ((rfl | hA) | ⟨hB, hq⟩)
        · exact Or.inr ⟨List.mem_cons_self _ _, hov⟩
        · exact Or.inl hA
        · exact Or.inr ⟨List.mem_cons_of_mem _ hB, hq⟩
      · rintro (hA | ⟨hmem, hq⟩)
        · exact Or.inl (Or.inr hA)
        · rcases List.mem_cons.mp hmem with rfl | hB
          · exact Or.inl (Or.inl rfl)
          · exact Or.inr ⟨hB, hq⟩
    · rw [if_neg hov, ih]
      constructor
      · rintro (hA | ⟨hB, hq⟩)
        · exact Or.inl hA
        · exact Or.inr ⟨List.mem_cons_of_mem _ hB, hq⟩
      · rintro (hA | ⟨hmem, hq⟩)
        · exact Or.inl hA
        · rcases List.mem_cons.mp hmem with rfl | hB
          · exact absurd hq hov
          · exact Or.inr ⟨hB, hq⟩

theorem mem_keys_processItem (e0 : ℚ) (days : ℕ) (t : List (ℕ × ℚ))
    (it : QPFValue) (q : ℕ) :
    q ∈ ((processItem e0 days t it).map Prod.fst) ↔
      q ∈ t.map Prod.fst ∨ touches e0 days it q := by
  rcases hv : it.value with _ | mm
  · constructor
    · intro h
      left
      have hnone : processItem e0 days t it = t := by
        unfold processItem
        rw [hv]
      rwa [hnone] at h
    · rintro (hA | ht)
      · have hnone : processItem e0 days t it = t := by
          unfold processItem
          rw [hv]
        rw [hnone]
        exact hA
      · obtain ⟨mm, hmm, _⟩ := ht
        rw [hv] at hmm
        simp at hmm
  · have hunfold : processItem e0 days t it =
        (if it.start + it.dur ≤ dayEdge e0 0 ∨ dayEdge e0 days ≤ it.start then t
         else if it.start + it.dur - it.start ≤ 0 then t
         else (List.range days).foldl (fun acc i =>
           if 0 < min (it.start + it.dur) (dayEdge e0 (i + 1)) -
               max it.start (dayEdge e0 i) then
             upsert acc i (lookupD acc i +
               mm * ((min (it.start + it.dur) (dayEdge e0 (i + 1)) -
                 max it.start (dayEdge e0 i)) / (it.start + it.dur - it.start)))
           else acc) t) := by
      unfold processItem
      rw [hv]
    rw [hunfold]
    by_cases hskip : it.start + it.dur ≤ dayEdge e0 0 ∨ dayEdge e0 days ≤ it.start
    · rw [if_pos hskip]
      constructor
      · exact Or.inl
      · rintro (hA | ⟨mm', _, _, hns, _, _⟩)
        · exact hA
        · exact absurd hskip hns
    · rw [if_neg hskip]
      by_cases hdur : it.start + it.dur - it.start ≤ 0
      · rw [if_pos hdur]
        constructor
        · exact Or.inl
        · rintro (hA | ⟨mm', _, _, _, hnd, _⟩)
          · exact hA
          · exact absurd hdur hnd
      · rw [if_neg hdur]
        rw [mem_keys_bucket_fold e0 mm it.start (it.start + it.dur) (List.range days) t q]
        constructor
        · rintro (hA | ⟨hmem, hq⟩)
          · exact Or.inl hA
          · exact Or.inr ⟨mm, hv, List.mem_range.mp hmem, hskip, hdur, hq⟩
        · rintro (hA | ⟨mm', _, hk, _, _, hq⟩)
          · exact Or.inl hA
          · exact Or.inr ⟨List.mem_range.mpr hk, hq⟩

theorem mem_keys_qpfTotals (e0 : ℚ) (days : ℕ) (items : List QPFValue)
    (init : List (ℕ × ℚ)) (q : ℕ) :
    q ∈ ((items.foldl (processItem e0 days) init).map Prod.fst) ↔
      q ∈ init.map Prod.fst ∨ ∃ it ∈ items, touches e0 days it q := by
  induction items generalizing init with
  | nil => simp
  | cons it items ih =>
    rw [List.foldl_cons, ih, mem_keys_processItem]
    constructor
    · rintro ((hA | ht) | ⟨it', hmem, ht⟩)
      · exact Or.inl hA
      · exact Or.inr ⟨it, List.mem_cons_self it items, ht⟩
      · exact Or.inr ⟨it', List.mem_cons_of_mem it hmem, ht⟩
    · rintro (hA | ⟨it', hmem, ht⟩)
      · exact Or.inl (Or.inl hA)
      · rcases List.mem_cons.mp hmem with rfl | hmem'
        · exact Or.inl (Or.inr ht)
        · exact Or.inr ⟨it', hmem', ht⟩

/-- C9 counterexample: a non-null zero-amount interval overlapping the
first day creates that day's key (with value 0.0), so a date can appear in
the totals map without being touched by any nonzero interval. -/
theorem c9_sparsity_counterexample :
    qpfTotalsMM 0 1 [⟨some 0, 0, 3600⟩] = [(0, 0)] ∧
    (∀ it ∈ ([⟨some 0, 0, 3600⟩] : List QPFValue), it.value = some 0) := by
  constructor
  · norm_num [qpfTotalsMM, processItem, dayEdge, upsert, lookupD,
      List.range_succ, min_def, max_def]
  · intro it hmem
    rw [List.mem_singleton.mp hmem]

/-- C9 amended: a null/missing amount contributes nothing and creates no
bucket key, and the totals map is sparse in that a date key appears exactly
when some non-null interval survives the window and bin-length guards and
overlaps that day positively — a non-null zero amount still creates its key
(with value 0), so sparsity is by presence of the amount, not by it being
nonzero. -/
theorem c9_sparsity_amended :
    (∀ (e0 : ℚ) (days : ℕ) (t : List (ℕ × ℚ)) (it : QPFValue),
      it.value = none → processItem e0 days t it = t) ∧
    (∀ (e0 : ℚ) (days : ℕ) (items : List QPFValue) (k : ℕ),
      k ∈ ((qpfTotalsMM e0 days items).map Prod.fst) ↔
        ∃ it ∈ items, touches e0 days it k) := by
  constructor
  · intro e0 days t it hv
    unfold processItem
    rw [hv]
  · intro e0 days items k
    unfold qpfTotalsMM
    rw [mem_keys_qpfTotals]
    simp

/-- Witness for C9's amended theorem: a null entry leaves a concrete totals
map untouched. -/
theorem c9_sparsity_amended_witness :
    processItem 0 3 [(0, 1)] ⟨none, 5, 5⟩ = [(0, 1)] :=
  c9_sparsity_amended.1 0 3 [(0, 1)] ⟨none, 5, 5⟩ rfl

/-- Python `rest.split("T", 1)[1]`: the characters after the first
occurrence of `c`, or `none` when `c` does not occur. -/
def afterFirst (cs : List Char) (c : Char) : Option (List Char) :=
  match cs with
  | [] => none
  | x :: xs => if x = c then some xs else afterFirst xs c

/-- Value of a nonempty digit string (Python `float` on the integer part). -/
def digitsToNat (cs : List Char) : ℕ :=
  cs.foldl (fun a c => 10 * a + (c.toNat - 48)) 0

/-- Python `float(num)` for the digits-and-dots strings accumulated by
`_parse_iso_duration`: accepts `"12"`, `"1."`, `".5"`, rejects the empty
string and strings with more than one dot (a raised `ValueError` is
`none`). -/
def parseDecimal (cs : List Char) : Option ℚ :=
  match cs.dropWhile (fun c => c ≠ '.') with
  | [] => if cs.isEmpty then none else some (digitsToNat cs : ℚ)
  | _ :: frac =>
    if frac.contains '.' then none
    else if (cs.takeWhile (fun c => c ≠ '.')).isEmpty && frac.isEmpty then none
    else some ((digitsToNat (cs.takeWhile (fun c => c ≠ '.')) : ℚ) +
      (digitsToNat frac : ℚ) / (10 ^ frac.length))

/-- The character loop of `_parse_iso_duration` (`qpf.py` lines 213-224):
digits and dots accumulate into `num`; `H`/`M`/`S` convert the accumulated
`num` and reset it; any other character just resets `num`. -/
def durLoop (cs : List Char) (num : List Char) (h m s : ℚ) :
    Option (ℚ × ℚ × ℚ) :=
  match cs with
  | [] => some (h, m, s)
  | c :: rest =>
    if c.isDigit || c = '.' then durLoop rest (num ++ [c]) h m s
    else if c = 'H' then
      match parseDecimal num with
      | some v => durLoop rest [] v m s
      | none => none
    else if c = 'M' then
      match parseDecimal num with
      | some v => durLoop rest [] h v s
      | none => none
    else if c = 'S' then
      match parseDecimal num with
      | some v => durLoop rest [] h m v
      | none => none
    else durLoop rest [] h m s

/-- `_parse_iso_duration` (`qpf.py` lines 202-225), returning total seconds:
a string not starting with `P` yields 1 hour; after stripping `P`, a string
without `T` yields zero; otherwise the time part after the first `T` is
scanned by `durLoop`. -/
def parseIsoDurationChars (cs : List Char) : Option ℚ :=
  match cs with
  | c :: rest =>
    if c = 'P' then
      match afterFirst rest 'T' with
      | none => some 0
      | some tpart =>
        (durLoop tpart [] 0 0 0).map fun x => x.1 * 3600 + x.2.1 * 60 + x.2.2
    else some 3600
  | [] => some 3600

/-- String wrapper for `_parse_iso_duration`. -/
def parse_iso_duration (s : String) : Option ℚ := parseIsoDurationChars s.data

/-- The duration part of `_parse_valid_time` (`qpf.py` lines 186-200): the
text after the first `/` is parsed as an ISO duration; with no `/` the
duration string defaults to `"PT1H"`. -/
def validTimeDuration (vt : String) : Option ℚ :=
  match afterFirst vt.data '/' with
  | some durPart => parseIsoDurationChars durPart
  | none => parseIsoDurationChars ['P', 'T', '1', 'H']

theorem afterFirst_eq_none (cs : List Char) (c : Char) :
    afterFirst cs c = none ↔ c ∉ cs := by
  induction cs with
  | nil => simp [afterFirst]
  | cons x xs ih =>
    by_cases h : x = c
    · simp [afterFirst, h]
    · rw [afterFirst, if_neg h, ih]
      simp only [List.mem_cons, not_or]
      constructor
      · intro hx
        exact ⟨fun hc => h hc.symm, hx⟩
      · intro hx
        exact hx.2

theorem parseIso_pt1h : parseIsoDurationChars ['P', 'T', '1', 'H'] = some 3600 := by
  have h : parseIsoDurationChars ['P', 'T', '1', 'H'] =
      some (((1 : ℕ) : ℚ) * 3600 + 0 * 60 + 0) := rfl
  rw [h]
  norm_num

/-- C10: in the duration grammar of `_parse_valid_time` /
`_parse_iso_duration`, a validTime without `/` defaults to exactly 1 hour
(3600 s); a duration part not starting with `P` parses as 1 hour; a
duration starting with `P` but with no `T` time component (such as `P1D`)
parses as a zero duration, and a zero duration makes the interval's bin
length nonpositive so it contributes to no day bucket at all. -/
theorem c10_duration_grammar :
    (∀ vt : String, '/' ∉ vt.data → validTimeDuration vt = some 3600) ∧
    (∀ cs : List Char, cs.head? ≠ some 'P' → parseIsoDurationChars cs = some 3600) ∧
    (∀ rest : List Char, 'T' ∉ rest →
      parseIsoDurationChars ('P' :: rest) = some 0) ∧
    parse_iso_duration "P1D" = some 0 ∧
    (∀ (e0 : ℚ) (days : ℕ) (t : List (ℕ × ℚ)) (it : QPFValue),
      it.dur = 0 → processItem e0 days t it = t) := by
  refine ⟨?_, ?_, ?_, ?_, ?_⟩
  · intro vt h
    unfold validTimeDuration
    rw [(afterFirst_eq_none vt.data '/').mpr h]
    exact parseIso_pt1h
  · intro cs h
    match cs with
    | [] => rfl
    | x :: xs =>
      have hx : x ≠ 'P' := by
        intro he
        apply h
        rw [he]
        rfl
      rw [parseIsoDurationChars, if_neg hx]
  · intro rest h
    rw [parseIsoDurationChars, if_pos rfl,
      (afterFirst_eq_none rest 'T').mpr h]
  · rfl
  · intro e0 days t it hd
    rcases hv : it.value with _ | mm
    · unfold processItem
      rw [hv]
    · have hunfold : processItem e0 days t it =
          (if it.start + it.dur ≤ dayEdge e0 0 ∨ dayEdge e0 days ≤ it.start then t
           else if it.start + it.dur - it.start ≤ 0 then t
           else (List.range days).foldl (fun acc i =>
             if 0 < min (it.start + it.dur) (dayEdge e0 (i + 1)) -
                 max it.start (dayEdge e0 i) then
               upsert acc i (lookupD acc i +
                 mm * ((min (it.start + it.dur) (dayEdge e0 (i + 1)) -
                   max it.start (dayEdge e0 i)) / (it.start + it.dur - it.start)))
             else acc) t) := by
        unfold processItem
        rw [hv]
      rw [hunfold]
      by_cases hskip : it.start + it.dur ≤ dayEdge e0 0 ∨ dayEdge e0 days ≤ it.start
      · rw [if_pos hskip]
      · rw [if_neg hskip, if_pos (by rw [hd]; simp)]

/-- Witness for C10 at a concrete slash-free validTime string. -/
theorem c10_duration_grammar_witness :
    validTimeDuration "2025-10-28T12:00:00+00:00" = some 3600 :=
  c10_duration_grammar.1 "2025-10-28T12:00:00+00:00" (by decide)
